import Mathlib

/-!
Verification of the tether session-supervision service core against its
specification.  The Python source (agent/tether) is shallowly embedded:
pure logic becomes Lean functions, the mutable store state becomes
explicit record passing, dictionaries become association lists, files
become lists of log lines, and asyncio futures become `Option` results.
All definitions are executable.
-/

namespace Tether

/-- Lifecycle states of a session.  The store code references the rich
state machine (store.py uses `SessionState.INTERRUPTING`), which the
specification singles out as the authoritative one, so the full set of
seven states is embedded. -/
inductive SessionState where
  | CREATED
  | RUNNING
  | AWAITING_INPUT
  | INTERRUPTING
  | STOPPING
  | STOPPED
  | ERROR
deriving DecidableEq, Repr

/-- Session record as built by `SessionStore.create_session` (store.py,
lines 65-94).  Timestamps are kept as the ISO strings the code stores;
identifier generation (`uuid`) and the clock (`_now`) are inputs. -/
structure Session where
  id : String
  repoId : String
  repoDisplay : String
  state : SessionState
  name : Option String
  createdAt : String
  startedAt : Option String
  endedAt : Option String
  lastActivityAt : String
  exitCode : Option Int
  summary : Option String
  runnerHeader : Option String
deriving DecidableEq, Repr

/-- Embeds `SessionStore.create_session` (store.py 65-94): the fresh
session record it constructs, with the generated id and the current
timestamp passed in explicitly.  The `base_ref` argument of the source
is accepted and, as in the source, not stored on the record. -/
def createSession (sessionId : String) (repoId : String) (_baseRef : Option String) (now : String) : Session :=
  { id := sessionId
    repoId := repoId
    repoDisplay := repoId
    state := SessionState.CREATED
    name := some "New session"
    createdAt := now
    startedAt := none
    endedAt := none
    lastActivityAt := now
    exitCode := none
    summary := none
    runnerHeader := none }

/-- Collapse runs of whitespace to single spaces and trim, as Python
does with a blank `" ".join(s.split())`.  Python `str.split()` with no
argument splits on whitespace runs and drops empty pieces. -/
def isPyWhitespace (c : Char) : Bool :=
  c = ' ' || c = '\t' || c = '\n' || c = '\x0d' || c = '\x0b' || c = '\x0c'

/-- Split a character list on whitespace runs, dropping empty words
(Python `str.split()` with no separator). -/
def pySplitAux (cur : List Char) (acc : List (List Char)) : List Char → List (List Char)
  | [] => if cur.isEmpty then acc.reverse else (cur.reverse :: acc).reverse
  | c :: cs =>
      if isPyWhitespace c then
        if cur.isEmpty then pySplitAux [] acc cs
        else pySplitAux [] (cur.reverse :: acc) cs
      else pySplitAux (c :: cur) acc cs

/-- Python `text.split()` on a string, returned as words. -/
def pySplit (s : String) : List String :=
  (pySplitAux [] [] s.data).map List.asString

/-- Python `" ".join(words)`. -/
def joinSpace (ws : List String) : String :=
  String.intercalate " " ws

/-- Modelled from the spec: `tether.api.state.maybe_set_session_name` is
imported by api/sessions.py but its module is absent from the source
tree.  Per the spec (section 4.2) the first non-empty prompt assigns
`name` (truncated to 80 characters) if not already set. -/
def maybeSetSessionName (s : Session) (prompt : String) : Session :=
  if (s.name.getD "") ≠ "" then s
  else
    let cleaned := joinSpace (pySplit prompt)
    if cleaned = "" then s
    else { s with name := some (cleaned.take 80) }

/-! ## Output normalization and deduplication (store.py `_normalize_output`, `should_emit_output`) -/

/-- Character class [0-9;?] of the CSI parameter bytes in the ANSI
regex of `_normalize_output` (store.py 351). -/
def isCsiParam (c : Char) : Bool :=
  c.isDigit || c = ';' || c = '?'

/-- Character class of the CSI intermediate bytes 0x20 to 0x2F, from
space to slash, in the regex. -/
def isCsiInter (c : Char) : Bool :=
  ' ' ≤ c && c ≤ '/'

/-- Character class [@-~] (bytes 0x40 to 0x7E) of the regex. -/
def isCsiFinal (c : Char) : Bool :=
  '@' ≤ c && c ≤ '~'

/-- Match the tail of a CSI escape after ESC and the opening bracket:
greedily take parameter bytes, then intermediate bytes, then require a
final byte.  Because the three classes are pairwise disjoint, this
greedy scan is exactly the behaviour of the regex engine here. -/
def matchCsiTail (cs : List Char) : Option (List Char) :=
  match (cs.dropWhile isCsiParam).dropWhile isCsiInter with
  | c :: rest => if isCsiFinal c then some rest else none
  | [] => none

theorem length_dropWhile_le' (p : Char → Bool) (l : List Char) :
    (l.dropWhile p).length ≤ l.length := by
  induction l with
  | nil => simp [List.dropWhile]
  | cons c cs ih =>
      rw [List.dropWhile]
      split
      · exact Nat.le_succ_of_le ih
      · simp

theorem matchCsiTail_length {cs rest : List Char}
    (h : matchCsiTail cs = some rest) : rest.length < cs.length := by
  have h1 : ((cs.dropWhile isCsiParam).dropWhile isCsiInter).length ≤ cs.length :=
    le_trans (length_dropWhile_le' _ _) (length_dropWhile_le' _ _)
  unfold matchCsiTail at h
  cases hd : (cs.dropWhile isCsiParam).dropWhile isCsiInter with
  | nil =>
      rw [hd] at h
      cases h
  | cons c rest2 =>
      rw [hd] at h h1
      by_cases hf : isCsiFinal c
      · simp only [hf, if_true] at h
        cases h
        simp only [List.length_cons] at h1
        omega
      · simp [hf] at h

/-- Embeds the regex substitution of `_normalize_output` (store.py
350-353): the pattern is ESC, an opening bracket, then `[0-9;?]*`, then
zero or more intermediate bytes 0x20 to 0x2F, then one final byte in
`[@-~]`, replaced by the empty string.  Every complete CSI escape
sequence is removed; any other character is kept. -/
def ansiStrip : List Char → List Char
  | [] => []
  | c :: cs =>
      if c = '\x1b' then
        match cs with
        | '[' :: rest =>
            match hm : matchCsiTail rest with
            | some rest2 => ansiStrip rest2
            | none => c :: ansiStrip ('[' :: rest)
        | cs2 => c :: ansiStrip cs2
      else c :: ansiStrip cs
termination_by l => l.length
decreasing_by
  · have := matchCsiTail_length hm
    simp only [List.length_cons]
    omega
  · simp
  · simp
  · simp

/-- Python `s.strip()` on a character list: drop whitespace from both
ends. -/
def pyStrip (cs : List Char) : List Char :=
  ((cs.dropWhile isPyWhitespace).reverse.dropWhile isPyWhitespace).reverse

/-- Embeds `SessionStore._normalize_output` (store.py 344-353): strip
ANSI CSI escapes, then collapse whitespace by stripping, splitting on
whitespace runs and joining with single spaces. -/
def normalizeOutput (text : String) : String :=
  joinSpace ((pySplitAux [] [] (pyStrip (ansiStrip text.data))).map List.asString)

/-- Appending to a `deque(maxlen=cap)`: the new element goes to the
tail and the oldest elements fall off the head once the capacity is
exceeded. -/
def ringAppend (cap : Nat) (history : List String) (x : String) : List String :=
  let h2 := history ++ [x]
  h2.drop (h2.length - cap)

/-- Embeds `SessionStore.should_emit_output` (store.py 325-342),
operating on the dedup ring of one session (`_recent_output`, a deque
with maxlen 10; a session with no entry yet is the empty ring).
Returns the decision and the updated ring. -/
def shouldEmitOutput (history : List String) (text : String) : Bool × List String :=
  let normalized := normalizeOutput text
  if normalized = "" then (false, history)
  else if normalized ∈ history then (false, history)
  else (true, ringAppend 10 history normalized)

/-- Feed a stream of output texts through `should_emit_output`,
returning the decisions. -/
def dedupRun (history : List String) : List String → List Bool
  | [] => []
  | t :: ts => (shouldEmitOutput history t).1 :: dedupRun (shouldEmitOutput history t).2 ts

/-- The dedup ring after feeding a stream of output texts. -/
def dedupHist (history : List String) : List String → List String
  | [] => history
  | t :: ts => dedupHist (shouldEmitOutput history t).2 ts

/-- Normalizations of the texts in the stream for which
`should_emit_output` returned true, in order. -/
def acceptedRun (history : List String) : List String → List String
  | [] => []
  | t :: ts =>
      (if (shouldEmitOutput history t).1 then [normalizeOutput t] else []) ++
        acceptedRun (shouldEmitOutput history t).2 ts

/-- The last n elements of a list. -/
def lastN (n : Nat) (l : List String) : List String :=
  l.drop (l.length - n)

theorem shouldEmitOutput_fst (history : List String) (t : String) :
    (shouldEmitOutput history t).1 = true ↔
      normalizeOutput t ≠ "" ∧ normalizeOutput t ∉ history := by
  unfold shouldEmitOutput
  by_cases h1 : normalizeOutput t = ""
  · simp [h1]
  · by_cases h2 : normalizeOutput t ∈ history <;> simp [h1, h2]

theorem lastN_idem_append (n : Nat) (l : List String) (x : String) :
    lastN n (lastN n l ++ [x]) = lastN n (l ++ [x]) := by
  unfold lastN
  rcases le_or_lt l.length n with hle | hlt
  · rw [Nat.sub_eq_zero_of_le hle, List.drop_zero]
  · have hlen : (l.drop (l.length - n)).length = n := by
      rw [List.length_drop]
      omega
    have key : l.drop (l.length - n) ++ [x] = (l ++ [x]).drop (l.length - n) := by
      rw [List.drop_append_of_le_length (by omega)]
    rw [List.length_append, hlen]
    rw [key, List.drop_drop]
    congr 1
    rw [List.length_append]
    simp only [List.length_cons, List.length_nil]
    omega

theorem dedupHist_lastN (ts : List String) :
    ∀ (acc : List String) (history : List String),
      history = lastN 10 acc →
      dedupHist history ts = lastN 10 (acc ++ acceptedRun history ts) := by
  induction ts with
  | nil => intro acc history h; simpa [dedupHist, acceptedRun] using h
  | cons t ts ih =>
      intro acc history h
      rw [dedupHist, acceptedRun]
      by_cases hb : (shouldEmitOutput history t).1 = true
      · have hstate : (shouldEmitOutput history t).2 =
            ringAppend 10 history (normalizeOutput t) := by
          rw [shouldEmitOutput_fst] at hb
          unfold shouldEmitOutput
          simp [hb.1, hb.2]
        have hring : ringAppend 10 history (normalizeOutput t) =
            lastN 10 (acc ++ [normalizeOutput t]) := by
          rw [h]
          unfold ringAppend
          exact lastN_idem_append 10 acc (normalizeOutput t)
        rw [ih (acc ++ [normalizeOutput t]) _ (by rw [hstate, hring])]
        simp [hb, hstate, hring, List.append_assoc]
      · have hstate : (shouldEmitOutput history t).2 = history := by
          unfold shouldEmitOutput
          unfold shouldEmitOutput at hb
          by_cases h1 : normalizeOutput t = ""
          · simp [h1]
          · by_cases h2 : normalizeOutput t ∈ history
            · simp [h1, h2]
            · simp [h1, h2] at hb
        rw [hstate]
        rw [ih acc history h]
        simp [hb, hstate]

/-- C8: after any stream of prior outputs (processed from a fresh
session), `should_emit_output` returns true for the next text exactly
when its normalization (ANSI escapes stripped, whitespace collapsed and
trimmed) is non-empty and differs from the normalization of each of the
last 10 texts for which it previously returned true. -/
theorem C8_should_emit_output_iff (past : List String) (t : String) :
    (shouldEmitOutput (dedupHist [] past) t).1 = true ↔
      normalizeOutput t ≠ "" ∧
        normalizeOutput t ∉ lastN 10 (acceptedRun [] past) := by
  have hinv : dedupHist [] past = lastN 10 (acceptedRun [] past) := by
    have := dedupHist_lastN past [] [] (by simp [lastN])
    simpa using this
  rw [hinv] at *
  exact shouldEmitOutput_fst _ t

/-! ## Per-session sequence counters (store.py `_seq`, `next_seq`, `_load_sessions`) -/

/-- The in-memory `_seq` dictionary: association list from session id to
the last issued sequence number. -/
abbrev SeqMap := List (String × Nat)

/-- Dictionary lookup, mirroring `self._seq.get(session_id, 0)` via
`(lookupSeq m sid).getD 0`. -/
def lookupSeq (m : SeqMap) (sid : String) : Option Nat :=
  match m with
  | [] => none
  | (k, v) :: rest => if k = sid then some v else lookupSeq rest sid

/-- Dictionary store `self._seq[session_id] = current`. -/
def insertSeq (m : SeqMap) (sid : String) (v : Nat) : SeqMap :=
  match m with
  | [] => [(sid, v)]
  | (k, w) :: rest => if k = sid then (sid, v) :: rest else (k, w) :: insertSeq rest sid v

/-- Embeds `SessionStore.next_seq` (store.py 160-164): read the counter
with default 0, add one, store it back, return it. -/
def nextSeq (m : SeqMap) (sid : String) : Nat × SeqMap :=
  let current := (lookupSeq m sid).getD 0 + 1
  (current, insertSeq m sid current)

/-- Embeds the `_seq` initialisation of `SessionStore._load_sessions`
(store.py 47-54): every persisted session row gets its counter reset to
0 when a store instance is created over existing data. -/
def loadSessionsSeq (persistedIds : List String) : SeqMap :=
  persistedIds.map (fun sid => (sid, 0))

/-- One store-level operation affecting the sequence counters: either a
call to `next_seq` for a session, or re-creating the `SessionStore`
over the same persisted data (which runs `_load_sessions`). -/
inductive SeqOp where
  | next (sid : String)
  | recreate (persistedIds : List String)

/-- Run a list of operations, collecting every value `next_seq`
returned. -/
def runSeqOps (m : SeqMap) : List SeqOp → List Nat
  | [] => []
  | SeqOp.next sid :: rest =>
      let (n, m') := nextSeq m sid
      n :: runSeqOps m' rest
  | SeqOp.recreate ids :: rest => runSeqOps (loadSessionsSeq ids) rest

/-- Iterate `next_seq` k times for one session within a single store
instance, collecting the returned values. -/
def iterNextSeq (m : SeqMap) (sid : String) : Nat → List Nat
  | 0 => []
  | Nat.succ k =>
      let (n, m') := nextSeq m sid
      n :: iterNextSeq m' sid k

theorem lookupSeq_insertSeq (m : SeqMap) (sid : String) (v : Nat) :
    lookupSeq (insertSeq m sid v) sid = some v := by
  induction m with
  | nil => simp [insertSeq, lookupSeq]
  | cons kv rest ih =>
      obtain ⟨k, w⟩ := kv
      by_cases hk : k = sid
      · simp [insertSeq, lookupSeq, hk]
      · simp [insertSeq, lookupSeq, hk, ih]

theorem iterNextSeq_dense (sid : String) (k : Nat) :
    ∀ (m : SeqMap) (c : Nat), (lookupSeq m sid).getD 0 = c →
      iterNextSeq m sid k = (List.range k).map (fun i => c + i + 1) := by
  induction k with
  | zero => intro m c _; simp [iterNextSeq]
  | succ k ih =>
      intro m c hc
      have hstep : (lookupSeq (insertSeq m sid (c + 1)) sid).getD 0 = c + 1 := by
        rw [lookupSeq_insertSeq]; rfl
      simp only [iterNextSeq, nextSeq, hc]
      rw [ih (insertSeq m sid (c + 1)) (c + 1) hstep]
      simp [List.range_succ_eq_map, List.map_map]
      intro i _
      omega

/-- C1: for a session whose counter is fresh (absent, or reset to 0 by
`create_session` or `_load_sessions`), k successive calls to `next_seq`
within one store instance return exactly 1, 2, …, k — dense, strictly
increasing, starting at 1; however the claim fails across store
re-creation, because `_load_sessions` resets the counter to 0 (see the
counterexample), so the guarantee holds per store instance only. -/
theorem C1_next_seq_dense_within_instance (m : SeqMap) (sid : String) (k : Nat)
    (h : (lookupSeq m sid).getD 0 = 0) :
    iterNextSeq m sid k = (List.range k).map (fun i => i + 1) := by
  have := iterNextSeq_dense sid k m 0 h
  simpa using this

/-- Witness for C1: over the map produced by loading one persisted
session, three calls to `next_seq` return [1, 2, 3]. -/
theorem C1_next_seq_dense_within_instance_witness :
    (lookupSeq (loadSessionsSeq ["s"]) "s").getD 0 = 0 ∧
      iterNextSeq (loadSessionsSeq ["s"]) "s" 3 = [1, 2, 3] := by
  refine ⟨by decide, ?_⟩
  have h := C1_next_seq_dense_within_instance (loadSessionsSeq ["s"]) "s" 3 (by decide)
  simpa [List.range] using h

/-- C1 counterexample: run `next_seq` twice, re-create the store over
the same persisted data, and call `next_seq` again.  The emitted
sequence numbers are [1, 2, 1]: the value 1 is repeated and the stream
is not strictly increasing over the session lifetime, refuting the
claim for re-created stores (because `_load_sessions` resets the
counter to 0 instead of restoring it from the persisted event log). -/
theorem C1_next_seq_reset_counterexample :
    runSeqOps [] [SeqOp.next "s", SeqOp.next "s",
        SeqOp.recreate ["s"], SeqOp.next "s"] = [1, 2, 1] ∧
      ¬ List.Pairwise (· < ·) (runSeqOps [] [SeqOp.next "s", SeqOp.next "s",
        SeqOp.recreate ["s"], SeqOp.next "s"]) := by
  constructor
  · decide
  · intro h
    rw [show runSeqOps [] [SeqOp.next "s", SeqOp.next "s",
        SeqOp.recreate ["s"], SeqOp.next "s"] = [1, 2, 1] from by decide] at h
    simp [List.pairwise_cons] at h

/-! ## Retention pruning (store.py `prune_sessions`) -/

/-- Session fields inspected by `prune_sessions`.  Timestamp fields are
the stored ISO strings; `none` models a missing or empty value, which
is falsy in the Python or-chain. -/
structure PruneSession where
  id : String
  state : SessionState
  endedAt : Option String
  lastActivityAt : Option String
  createdAt : Option String
deriving DecidableEq, Repr

/-- The fallback chain `ended_at or last_activity_at or created_at`
from store.py line 236. -/
def tsChain (s : PruneSession) : Option String :=
  s.endedAt <|> s.lastActivityAt <|> s.createdAt

/-- Body of the prune loop (store.py 233-245): a session is removed
when it is not RUNNING and not INTERRUPTING, its timestamp chain yields
a value, that value parses, and the parsed instant is before the
cutoff.  `parseTs` stands for `_parse_ts` (strptime of the ISO format,
failing on malformed strings) and `cutoff` for now minus retention. -/
def pruneRemoves (parseTs : String → Option Int) (cutoff : Int) (s : PruneSession) : Bool :=
  if s.state = SessionState.RUNNING ∨ s.state = SessionState.INTERRUPTING then false
  else
    match tsChain s with
    | none => false
    | some ts =>
        match parseTs ts with
        | none => false
        | some w => w < cutoff

/-- Embeds `SessionStore.prune_sessions` (store.py 227-246): with a
non-positive retention nothing is removed; otherwise every session
matching the removal test is deleted (each deletion succeeds because
the loop iterates over a snapshot of distinct ids) and the count of
removals is returned next to the remaining registry. -/
def pruneSessions (parseTs : String → Option Int) (now : Int) (retentionDays : Int)
    (sessions : List PruneSession) : Nat × List PruneSession :=
  if retentionDays ≤ 0 then (0, sessions)
  else
    let cutoff := now - retentionDays * 86400
    ((sessions.filter (fun s => pruneRemoves parseTs cutoff s)).length,
      sessions.filter (fun s => ! pruneRemoves parseTs cutoff s))

/-- A concrete stand-in for `_parse_ts` in closed scenarios: one known
old timestamp string parses to instant 0, everything else fails. -/
def demoParseTs (s : String) : Option Int :=
  if s = "2020-01-01T00:00:00Z" then some 0 else none

/-- C4 counterexample: a session in the non-terminal CREATED state
whose created_at is older than the retention window is removed by
`prune_sessions`, contradicting the claim that sessions in non-terminal
states are never removed regardless of age (the code only skips RUNNING
and INTERRUPTING). -/
theorem C4_prune_removes_nonterminal_counterexample :
    pruneSessions demoParseTs 1000000000 7
        [⟨"sess_a", SessionState.CREATED, none, none, some "2020-01-01T00:00:00Z"⟩] =
      (1, []) := by
  rfl

/-- C4 as amended: for a positive retention window, `prune_sessions`
removes exactly the sessions whose state is neither RUNNING nor
INTERRUPTING and whose fallback timestamp (ended_at, else
last_activity_at, else created_at) exists, parses, and is older than
now minus the retention window; sessions in RUNNING or INTERRUPTING
are never removed, but old sessions in CREATED, AWAITING_INPUT,
STOPPING (as well as STOPPED and ERROR) are. -/
theorem C4_prune_characterization (parseTs : String → Option Int) (now retentionDays : Int)
    (sessions : List PruneSession) (h : 0 < retentionDays) :
    (∀ s, s ∈ (pruneSessions parseTs now retentionDays sessions).2 ↔
        s ∈ sessions ∧
          ¬ (s.state ≠ SessionState.RUNNING ∧ s.state ≠ SessionState.INTERRUPTING ∧
            ∃ ts w, tsChain s = some ts ∧ parseTs ts = some w ∧
              w < now - retentionDays * 86400)) ∧
      (∀ s, s ∈ sessions →
        (s.state = SessionState.RUNNING ∨ s.state = SessionState.INTERRUPTING) →
          s ∈ (pruneSessions parseTs now retentionDays sessions).2) ∧
      (pruneSessions parseTs now retentionDays sessions).1 =
        sessions.length - (pruneSessions parseTs now retentionDays sessions).2.length := by
  have hrem : ∀ s, pruneRemoves parseTs (now - retentionDays * 86400) s = true ↔
      (s.state ≠ SessionState.RUNNING ∧ s.state ≠ SessionState.INTERRUPTING ∧
        ∃ ts w, tsChain s = some ts ∧ parseTs ts = some w ∧
          w < now - retentionDays * 86400) := by
    intro s
    unfold pruneRemoves
    by_cases hs : s.state = SessionState.RUNNING ∨ s.state = SessionState.INTERRUPTING
    · simp [hs]
      intro h1 h2
      cases hs with
      | inl h3 => exact absurd h3 h1
      | inr h3 => exact absurd h3 h2
    · push_neg at hs
      simp only [hs.1, hs.2, or_self, if_false, ne_eq, not_false_eq_true, true_and]
      rcases hts : tsChain s with _ | ts
      · simp [hts]
      · rcases hw : parseTs ts with _ | w
        · simp [hts, hw]
        · simp [hts, hw]
  have hnp : ¬ retentionDays ≤ 0 := by omega
  refine ⟨?_, ?_, ?_⟩
  · intro s
    simp only [pruneSessions, hnp, if_false, List.mem_filter]
    rw [← hrem s]
    simp
  · intro s hmem hstate
    simp only [pruneSessions, hnp, if_false, List.mem_filter]
    refine ⟨hmem, ?_⟩
    unfold pruneRemoves
    simp [hstate]
  · simp only [pruneSessions, hnp, if_false]
    have := List.length_eq_length_filter_add
      (l := sessions) (fun s => pruneRemoves parseTs (now - retentionDays * 86400) s)
    omega

/-- Witness for C4: with retention 7 days, an aged STOPPED session is
removed while a RUNNING session of the same age is kept. -/
theorem C4_prune_characterization_witness :
    (0 : Int) < 7 ∧
      (⟨"sess_r", SessionState.RUNNING, none, none, some "2020-01-01T00:00:00Z"⟩ ∈
        (pruneSessions demoParseTs 1000000000 7
          [⟨"sess_s", SessionState.STOPPED, some "2020-01-01T00:00:00Z", none, none⟩,
           ⟨"sess_r", SessionState.RUNNING, none, none, some "2020-01-01T00:00:00Z"⟩]).2) ∧
      (pruneSessions demoParseTs 1000000000 7
          [⟨"sess_s", SessionState.STOPPED, some "2020-01-01T00:00:00Z", none, none⟩,
           ⟨"sess_r", SessionState.RUNNING, none, none, some "2020-01-01T00:00:00Z"⟩]).1 = 1 := by
  refine ⟨by norm_num, ?_, ?_⟩
  · exact (C4_prune_characterization demoParseTs 1000000000 7 _ (by norm_num)).2.1 _
      (by simp) (Or.inl rfl)
  · have h := (C4_prune_characterization demoParseTs 1000000000 7
      [⟨"sess_s", SessionState.STOPPED, some "2020-01-01T00:00:00Z", none, none⟩,
       ⟨"sess_r", SessionState.RUNNING, none, none, some "2020-01-01T00:00:00Z"⟩]
      (by norm_num)).2.2
    rw [h]
    rfl

/-! ## Session deletion and working directories (store.py `delete_session`, `clear_workdir`) -/

/-- Session fields used by `delete_session` and `clear_workdir`. -/
structure WSession where
  id : String
  state : SessionState
  directory : Option String
  workdirManaged : Bool
deriving DecidableEq, Repr

/-- Store and disk state touched by `delete_session`: the in-memory
registry (which mirrors the database rows), the sequence counters, the
subscriber table, the on-disk per-session event-log directories, and
the set of working directories existing on disk. -/
structure WStore where
  sessions : List WSession
  seq : SeqMap
  subscribers : List String
  logDirs : List String
  fsDirs : List String
deriving DecidableEq, Repr

/-- Registry lookup by session id. -/
def lookupWSession : List WSession → String → Option WSession
  | [], _ => none
  | s :: rest, sid => if s.id = sid then some s else lookupWSession rest sid

/-- Registry removal by session id (the dictionary pop). -/
def removeWSession (ss : List WSession) (sid : String) : List WSession :=
  ss.filter (fun s => s.id ≠ sid)

/-- Registry update in place by id. -/
def updateWSession (ss : List WSession) (s : WSession) : List WSession :=
  ss.map (fun t => if t.id = s.id then s else t)

/-- Removal of a sequence counter entry (the dictionary pop). -/
def removeSeq (m : SeqMap) (sid : String) : SeqMap :=
  m.filter (fun kv => kv.1 ≠ sid)

/-- Embeds `SessionStore.clear_workdir` (store.py 390-401): look the
session up in the registry (returning unchanged when absent), honour
the force flag, remove a managed directory from disk, then null the
directory fields on the session. -/
def clearWorkdir (st : WStore) (sid : String) (force : Bool) : WStore :=
  match lookupWSession st.sessions sid with
  | none => st
  | some s =>
      if force = false && s.workdirManaged = false then st
      else
        let fsDirs2 :=
          match s.directory with
          | some path => if s.workdirManaged then st.fsDirs.erase path else st.fsDirs
          | none => st.fsDirs
        { st with
          fsDirs := fsDirs2,
          sessions := updateWSession st.sessions
            { s with directory := none, workdirManaged := false } }

/-- Embeds `SessionStore.delete_session` (store.py 109-133): pop the
session from the registry (and the database), pop the sequence counter
and the subscriber list, then call `clear_workdir` with the default
force=True — which, because the session was already popped, finds no
session and returns without touching the disk.  The event-log files on
disk are never touched. -/
def deleteSession (st : WStore) (sid : String) : Bool × WStore :=
  match lookupWSession st.sessions sid with
  | none => (false, st)
  | some _ =>
      let st1 := { st with sessions := removeWSession st.sessions sid }
      let st2 := { st1 with
        seq := removeSeq st1.seq sid,
        subscribers := st1.subscribers.erase sid }
      (true, clearWorkdir st2 sid true)

/-- C5 as it fails on the code: deleting a STOPPED session whose
working directory is tagged managed removes the session from the
registry but leaves both the managed working directory and the
session's event-log directory on disk — `delete_session` pops the
session before calling `clear_workdir`, so the cleanup finds no session
and does nothing, and no code path removes the log files. -/
theorem C5_delete_session_keeps_managed_workdir :
    deleteSession
        ⟨[⟨"sess_a", SessionState.STOPPED, some "/tmp/tether_w", true⟩],
          [("sess_a", 5)], ["sess_a"], ["sess_a"], ["/tmp/tether_w"]⟩ "sess_a" =
      (true, ⟨[], [], [], ["sess_a"], ["/tmp/tether_w"]⟩) := by
  rfl

/-! ## Persistent event log (store.py `_append_event_log`, `read_event_log`) -/

/-- One event as it appears on a log line.  The code reads the sequence
with `int(event.get("seq") or 0)`, so a missing or zero `seq` is the
value 0 here; the rest of the JSON object is opaque to the store and is
summarised by a type tag and a payload token. -/
structure Ev where
  seq : Nat
  type : String
  payload : Nat
deriving DecidableEq, Repr

/-- A line of `events.jsonl`: `some` is a line that parses as a JSON
object, `none` is a blank or malformed line (skipped by the reader). -/
abbrev LogLine := Option Ev

/-- On-disk state of one session's event log: the live file
`events.jsonl` and the single rotated generation `events.jsonl.1`,
each `none` when the file does not exist. -/
structure EventLogFS where
  current : Option (List LogLine)
  rotated : Option (List LogLine)
deriving DecidableEq, Repr

/-- Rotation threshold from store.py line 214: `max_bytes = 5_000_000`. -/
def maxLogBytes : Nat := 5000000

/-- Embeds `SessionStore._append_event_log` (store.py 211-225).  When
the live file exists and its size exceeds 5 MB, it is renamed over the
rotated generation (deleting any previous one); then the serialized
event is appended to the (possibly fresh) live file.  `fileSize` stands
for `os.path.getsize` applied to the serialized file content. -/
def appendEventLog (fileSize : List LogLine → Nat) (fs : EventLogFS) (e : Ev) : EventLogFS :=
  let fs1 :=
    match fs.current with
    | none => fs
    | some lines =>
        if fileSize lines > maxLogBytes then
          { current := none, rotated := some lines }
        else fs
  match fs1.current with
  | none => { fs1 with current := some [some e] }
  | some lines => { fs1 with current := some (lines ++ [some e]) }

/-- Python truthiness test `if limit and len(events) >= limit` used to
break out of the read loop. -/
def limitReached (limit : Option Nat) (n : Nat) : Bool :=
  match limit with
  | none => false
  | some l => l ≠ 0 && n ≥ l

/-- Reading loop of `read_event_log` over the lines of the live file:
skip blank and malformed lines, skip events with a truthy `seq` at or
below `since_seq`, stop once the limit is reached. -/
def readLogLines (sinceSeq : Nat) (limit : Option Nat) : List LogLine → List Ev → List Ev
  | [], acc => acc
  | line :: rest, acc =>
      match line with
      | none => readLogLines sinceSeq limit rest acc
      | some ev =>
          if ev.seq ≠ 0 && ev.seq ≤ sinceSeq then readLogLines sinceSeq limit rest acc
          else
            let acc2 := acc ++ [ev]
            if limitReached limit acc2.length then acc2
            else readLogLines sinceSeq limit rest acc2

/-- Embeds `SessionStore.read_event_log` (store.py 512-543).  Note that
only the live `events.jsonl` is opened; the rotated
`events.jsonl.1` is never consulted. -/
def readEventLog (fs : EventLogFS) (sinceSeq : Nat) (limit : Option Nat) : List Ev :=
  match fs.current with
  | none => []
  | some lines => readLogLines sinceSeq limit lines []

/-- A file-size model for concrete scenarios: any file holding at least
one line is over the 5 MB rotation threshold (each serialized event is
large). -/
def demoFileSize (lines : List LogLine) : Nat :=
  lines.length * 6000000

/-- C2 as it fails on the code: append an event with seq 1 and then an
event with seq 2, the second append rotating the oversized live file.
The first event now sits in `events.jsonl.1`, and
`read_event_log(s, since_seq=0)` returns only the second event, because
the reader never opens the rotated file — refuting the claim that every
appended event is returned for n = 0. -/
theorem C2_read_event_log_misses_rotated :
    (appendEventLog demoFileSize
        (appendEventLog demoFileSize ⟨none, none⟩ ⟨1, "output", 0⟩)
        ⟨2, "output", 1⟩).rotated = some [some ⟨1, "output", 0⟩] ∧
      readEventLog
        (appendEventLog demoFileSize
          (appendEventLog demoFileSize ⟨none, none⟩ ⟨1, "output", 0⟩)
          ⟨2, "output", 1⟩) 0 none = [⟨2, "output", 1⟩] := by
  constructor <;> rfl

/-! ## Event emission and subscriber fan-out (store.py `emit`) -/

/-- In-memory state touched by `emit` for one session: the subscriber
queues (registration order, events appended at the tail) and the
on-disk log. -/
structure EmitState where
  queues : List (List Ev)
  log : EventLogFS

/-- One observable effect of `emit`, in execution order: an `await
queue.put(event)` for the queue at the given index, or the call to
`_append_event_log`. -/
inductive EmitAction where
  | deliver (queueIdx : Nat)
  | appendLog
deriving DecidableEq, Repr

/-- Embeds `SessionStore.emit` (store.py 187-203): put the event on
every subscriber queue in registration order, then append it to the
persistent log.  The returned trace records the order of the effects as
the source performs them. -/
def emit (fileSize : List LogLine → Nat) (st : EmitState) (e : Ev) :
    EmitState × List EmitAction :=
  ({ queues := st.queues.map (fun q => q ++ [e]),
     log := appendEventLog fileSize st.log e },
   (List.range st.queues.length).map EmitAction.deliver ++ [EmitAction.appendLog])

/-- Emit a list of events one after another. -/
def emitAll (fileSize : List LogLine → Nat) (st : EmitState) : List Ev → EmitState
  | [] => st
  | e :: es => emitAll fileSize (emit fileSize st e).1 es

/-- C7 counterexample: with a single subscribed queue, the effect trace
of `emit` is the queue delivery followed by the log append — not the
log append followed by the delivery that the claim requires, because
the source loops over the queues before calling `_append_event_log`. -/
theorem C7_emit_appends_after_delivery_counterexample :
    (emit demoFileSize ⟨[[]], ⟨none, none⟩⟩ ⟨1, "output", 0⟩).2 =
        [EmitAction.deliver 0, EmitAction.appendLog] ∧
      (emit demoFileSize ⟨[[]], ⟨none, none⟩⟩ ⟨1, "output", 0⟩).2 ≠
        [EmitAction.appendLog, EmitAction.deliver 0] := by
  decide

/-- C7 as amended: `emit` delivers the event to every currently
subscribed queue in registration order and afterwards appends it to the
persistent log (with rotation); consequently, over any emitted stream,
every subscriber queue receives the whole stream in emission order
(which equals sequence order when the emitters number events with
`next_seq`), and the trace of each emission is the deliveries followed
by the log append. -/
theorem C7_emit_delivers_then_appends (fileSize : List LogLine → Nat)
    (st : EmitState) (es : List Ev) :
    (emitAll fileSize st es).queues = st.queues.map (fun q => q ++ es) ∧
      ∀ e, (emit fileSize st e).1.log = appendEventLog fileSize st.log e ∧
        (emit fileSize st e).2 =
          (List.range st.queues.length).map EmitAction.deliver ++ [EmitAction.appendLog] := by
  constructor
  · induction es generalizing st with
    | nil => simp [emitAll]
    | cons e rest ih =>
        rw [emitAll, ih]
        simp [emit, List.map_map, Function.comp]
  · intro e
    exact ⟨rfl, rfl⟩

/-! ## Bridge subscriber routing (bridges/subscriber.py `_consume`) -/

/-- Payload fields of a store event as the bridge subscriber reads
them, each the result of the corresponding `data.get` with the default
the code uses.  The `final` flag is carried because the specification
refers to it; the consume loop in the source never reads it. -/
structure BridgeEventData where
  text : String
  final : Bool
  isHistory : Bool
  state : String
  message : Option String
  requestId : String
  toolName : Option String
  toolInput : String
deriving DecidableEq, Repr

/-- A store event as dequeued by the bridge subscriber. -/
structure BridgeEvent where
  type : String
  data : BridgeEventData
deriving DecidableEq, Repr

/-- A call made on the bound bridge. -/
inductive BridgeCall where
  | onOutput (text : String)
  | onApprovalRequest (requestId : String) (title : String) (description : String)
      (options : List String)
  | onStatusChange (status : String) (message : Option String)
deriving DecidableEq, Repr

/-- The `state_map` dictionary of `_consume` (bridges/subscriber.py
90-94). -/
def stateMap (st : String) : Option String :=
  if st = "RUNNING" then some "executing"
  else if st = "AWAITING_INPUT" then some "done"
  else if st = "ERROR" then some "error"
  else none

/-- Embeds the per-event dispatch of `BridgeSubscriber._consume`
(bridges/subscriber.py 58-110): the bridge call made for one dequeued
event, or `none` when the event produces no call.  History events are
skipped; `output` and `output_final` both forward any non-empty text to
`on_output`; `permission_request` synthesizes an approval request;
`session_state` maps through `state_map`; `error` reports a status
change with the message. -/
def consumeEvent (e : BridgeEvent) : Option BridgeCall :=
  if e.data.isHistory then none
  else if e.type = "output" then
    if e.data.text ≠ "" then some (BridgeCall.onOutput e.data.text) else none
  else if e.type = "output_final" then
    if e.data.text ≠ "" then some (BridgeCall.onOutput e.data.text) else none
  else if e.type = "permission_request" then
    some (BridgeCall.onApprovalRequest e.data.requestId
      (e.data.toolName.getD "Permission request") e.data.toolInput ["Allow", "Deny"])
  else if e.type = "session_state" then
    match stateMap e.data.state with
    | some status => some (BridgeCall.onStatusChange status none)
    | none => none
  else if e.type = "error" then
    some (BridgeCall.onStatusChange "error" (some (e.data.message.getD "Unknown error")))
  else none

/-- C6 as it fails on the code: the subscriber forwards an `output`
event with non-empty text even when its final flag is false, and it
also forwards an `output_final` event to `on_output` instead of
ignoring it — both contradicting the claim (and the repository's own
subscriber tests, which assert that non-final output and `output_final`
produce no bridge call).  The claimed behaviour for `session_state`
ERROR does hold. -/
theorem C6_subscriber_forwards_nonfinal_and_output_final :
    consumeEvent ⟨"output",
        ⟨"thinking step", false, false, "", none, "", none, ""⟩⟩ =
      some (BridgeCall.onOutput "thinking step") ∧
    consumeEvent ⟨"output_final",
        ⟨"accumulated blob", true, false, "", none, "", none, ""⟩⟩ =
      some (BridgeCall.onOutput "accumulated blob") ∧
    consumeEvent ⟨"session_state",
        ⟨"", false, false, "ERROR", none, "", none, ""⟩⟩ =
      some (BridgeCall.onStatusChange "error" none) := by
  refine ⟨rfl, rfl, rfl⟩

/-! ## Pending permissions (spec section 4.8; api/external_agents.py `respond_to_approval`) -/

/-- Resolution payload completing a permission future.  Its content is
opaque to the store and is carried whole. -/
structure PermResult where
  allowed : Bool
  optionSelected : Option String
  message : Option String
  resolvedBy : Option String
deriving DecidableEq, Repr

/-- Modelled from the spec: a PendingPermission (spec section 3) is a
one-shot future per (session, request_id); `result = none` models an
unresolved future and `some` a completed one.  The store methods
`add_pending_permission` and `resolve_pending_permission` are called
from api/external_agents.py and exercised by the repository tests, but
their definitions are not in the source tree. -/
structure PendingPermission where
  kind : String
  payload : String
  result : Option PermResult
deriving DecidableEq, Repr

/-- The pending-permission table keyed by (session id, request id). -/
abbrev PendingMap := List ((String × String) × PendingPermission)

/-- Table lookup by (session id, request id). -/
def lookupPending : PendingMap → String → String → Option PendingPermission
  | [], _, _ => none
  | (k, p) :: rest, sid, rid =>
      if k = (sid, rid) then some p else lookupPending rest sid rid

/-- Table update in place by (session id, request id). -/
def updatePending : PendingMap → String → String → PendingPermission → PendingMap
  | [], _, _, _ => []
  | (k, p0) :: rest, sid, rid, p =>
      (if k = (sid, rid) then ((sid, rid), p) else (k, p0)) :: updatePending rest sid rid p

/-- Modelled from the spec: `add_pending_permission(session_id,
request_id, kind, payload, future)` registers an unresolved future
(spec section 4.1). -/
def addPendingPermission (m : PendingMap) (sid rid kind payload : String) : PendingMap :=
  m ++ [((sid, rid), ⟨kind, payload, none⟩)]

/-- Modelled from the spec: `resolve_pending_permission(session_id,
request_id, result) → bool` returns false when the entry is missing or
its future is already resolved, leaving the table unchanged; otherwise
it completes the future with the result and returns true (spec sections
4.1 and 4.8: first resolution wins). -/
def resolvePendingPermission (m : PendingMap) (sid rid : String) (res : PermResult) :
    Bool × PendingMap :=
  match lookupPending m sid rid with
  | none => (false, m)
  | some p =>
      match p.result with
      | some _ => (false, m)
      | none => (true, updatePending m sid rid { p with result := some res })

/-- HTTP outcome of the respond endpoint. -/
inductive RespondResult where
  | ok
  | notFound
deriving DecidableEq, Repr

/-- Embeds `respond_to_approval` (api/external_agents.py 201-238): 404
when the session is unknown, 404 when `resolve_pending_permission`
returns false, otherwise emit an `approval_response` event and return
ok.  The third component records whether the event was emitted. -/
def respondToApproval (sessionIds : List String) (m : PendingMap) (sid rid : String)
    (res : PermResult) : RespondResult × PendingMap × Bool :=
  if sid ∈ sessionIds then
    let r := resolvePendingPermission m sid rid res
    if r.1 then (RespondResult.ok, r.2, true)
    else (RespondResult.notFound, r.2, false)
  else (RespondResult.notFound, m, false)

theorem lookupPending_updatePending (m : PendingMap) (sid rid : String)
    (p q : PendingPermission) (h : lookupPending m sid rid = some p) :
    lookupPending (updatePending m sid rid q) sid rid = some q := by
  induction m with
  | nil => cases h
  | cons kv rest ih =>
      obtain ⟨k, p0⟩ := kv
      by_cases hk : k = (sid, rid)
      · subst hk
        rw [updatePending, if_pos rfl, lookupPending, if_pos rfl]
      · rw [lookupPending] at h
        simp only [hk, if_false] at h
        rw [updatePending, if_neg hk, lookupPending, if_neg hk]
        exact ih h

/-- C3: a pending permission resolves exactly once.  With a registered
unresolved future for (session, request_id), the first call through the
respond endpoint succeeds, completes the future with the supplied
result, and emits the approval_response event; every subsequent respond
call for the same request id returns 404 without altering the table and
emits nothing. -/
theorem C3_permission_resolves_once (ids : List String) (m : PendingMap) (sid rid : String)
    (p : PendingPermission) (res res2 : PermResult)
    (hs : sid ∈ ids) (hp : lookupPending m sid rid = some p) (hun : p.result = none) :
    (respondToApproval ids m sid rid res).1 = RespondResult.ok ∧
      (respondToApproval ids m sid rid res).2.2 = true ∧
      lookupPending (respondToApproval ids m sid rid res).2.1 sid rid =
        some { p with result := some res } ∧
      respondToApproval ids (respondToApproval ids m sid rid res).2.1 sid rid res2 =
        (RespondResult.notFound, (respondToApproval ids m sid rid res).2.1, false) := by
  obtain ⟨pk, pp, pr⟩ := p
  cases hun
  have hres : resolvePendingPermission m sid rid res =
      (true, updatePending m sid rid ⟨pk, pp, some res⟩) := by
    unfold resolvePendingPermission
    rw [hp]
  have hfirst : respondToApproval ids m sid rid res =
      (RespondResult.ok, updatePending m sid rid ⟨pk, pp, some res⟩, true) := by
    unfold respondToApproval
    simp [hs, hres]
  have hlook2 : lookupPending (updatePending m sid rid ⟨pk, pp, some res⟩) sid rid =
      some ⟨pk, pp, some res⟩ :=
    lookupPending_updatePending m sid rid ⟨pk, pp, none⟩ _ hp
  have hres2 : resolvePendingPermission
      (updatePending m sid rid ⟨pk, pp, some res⟩) sid rid res2 =
      (false, updatePending m sid rid ⟨pk, pp, some res⟩) := by
    unfold resolvePendingPermission
    rw [hlook2]
  refine ⟨by rw [hfirst], by rw [hfirst], by rw [hfirst]; exact hlook2, ?_⟩
  rw [hfirst]
  unfold respondToApproval
  simp [hs, hres2]

/-- Witness for C3: concrete one-entry table; the first respond call
succeeds and the second returns 404 with nothing changed. -/
theorem C3_permission_resolves_once_witness :
    (respondToApproval ["sess_a"]
        (addPendingPermission [] "sess_a" "req_1" "approval" "p")
        "sess_a" "req_1" ⟨true, some "Yes", none, some "alice"⟩).1 = RespondResult.ok ∧
      respondToApproval ["sess_a"]
          (respondToApproval ["sess_a"]
            (addPendingPermission [] "sess_a" "req_1" "approval" "p")
            "sess_a" "req_1" ⟨true, some "Yes", none, some "alice"⟩).2.1
          "sess_a" "req_1" ⟨false, some "No", none, some "bob"⟩ =
        (RespondResult.notFound,
          (respondToApproval ["sess_a"]
            (addPendingPermission [] "sess_a" "req_1" "approval" "p")
            "sess_a" "req_1" ⟨true, some "Yes", none, some "alice"⟩).2.1, false) := by
  have h := C3_permission_resolves_once ["sess_a"]
    (addPendingPermission [] "sess_a" "req_1" "approval" "p")
    "sess_a" "req_1" ⟨"approval", "p", none⟩
    ⟨true, some "Yes", none, some "alice"⟩ ⟨false, some "No", none, some "bob"⟩
    (by simp) (by rfl) rfl
  exact ⟨h.1, h.2.2.2⟩

/-! ## Stop endpoint (api/sessions.py `stop_session`) -/

/-- Registry lookup by session id for the API layer, mirroring
`store.get_session`. -/
def lookupApiSession : List Session → String → Option Session
  | [], _ => none
  | s :: rest, sid => if s.id = sid then some s else lookupApiSession rest sid

/-- Registry update in place by id, mirroring `store.update_session`. -/
def updateApiSession (ss : List Session) (s : Session) : List Session :=
  ss.map (fun t => if t.id = s.id then s else t)

/-- Modelled from the spec: `tether.api.state.transition` is imported
by api/sessions.py but its module is absent from the source tree.  Per
the spec (section 4.2), a transition sets the state, sets started_at on
entering RUNNING the first time, sets ended_at on entering a terminal
state, records the exit code when known, and refreshes
last_activity_at on any non-terminal transition.  The flags mirror the
keyword arguments visible at the call sites. -/
def transition (s : Session) (target : SessionState) (startedAtFlag endedAtFlag : Bool)
    (exitCode : Option Int) (now : String) : Session :=
  { s with
    state := target
    startedAt :=
      if startedAtFlag then (if s.startedAt = none then some now else s.startedAt)
      else s.startedAt
    endedAt := if endedAtFlag then some now else s.endedAt
    exitCode :=
      match exitCode with
      | some v => some v
      | none => s.exitCode
    lastActivityAt :=
      if target = SessionState.STOPPED ∨ target = SessionState.ERROR then s.lastActivityAt
      else now }

/-- HTTP outcome of the stop endpoint. -/
inductive StopResp where
  | notFound
  | invalidState
  | payload (s : Session)
deriving DecidableEq, Repr

/-- Result of one call to the stop endpoint: the response, the registry
afterwards, whether `runner.stop` was invoked, and the states of the
session_state events emitted along the way. -/
structure StopOutcome where
  resp : StopResp
  sessions : List Session
  runnerCalled : Bool
  emitted : List SessionState
deriving DecidableEq, Repr

/-- Embeds `stop_session` (api/sessions.py 181-210).  A missing session
is 404; a STOPPED or ERROR session is returned unchanged without
calling the runner; a CREATED session is 409; otherwise a RUNNING
session first transitions to STOPPING with a state event, `runner.stop`
is awaited (modelled by `runnerStop`, which may mutate the registry
through runner callbacks and return an exit code), the session is
re-read, and when still not terminal it transitions to STOPPED with
ended_at and the exit code, emitting a final state event. -/
def stopSession (sessions : List Session) (sid : String)
    (runnerStop : List Session → Option Int × List Session) (now : String) : StopOutcome :=
  match lookupApiSession sessions sid with
  | none => ⟨StopResp.notFound, sessions, false, []⟩
  | some s =>
      if s.state = SessionState.STOPPED ∨ s.state = SessionState.ERROR then
        ⟨StopResp.payload s, sessions, false, []⟩
      else if s.state = SessionState.CREATED then
        ⟨StopResp.invalidState, sessions, false, []⟩
      else
        let step1 :=
          if s.state = SessionState.RUNNING then
            (updateApiSession sessions
                (transition s SessionState.STOPPING false false none now),
              [SessionState.STOPPING])
          else (sessions, [])
        let rc := runnerStop step1.1
        match lookupApiSession rc.2 sid with
        | none => ⟨StopResp.notFound, rc.2, true, step1.2⟩
        | some s2 =>
            if s2.state ≠ SessionState.STOPPED ∧ s2.state ≠ SessionState.ERROR then
              let s3 := transition s2 SessionState.STOPPED false true rc.1 now
              ⟨StopResp.payload s3, updateApiSession rc.2 s3, true,
                step1.2 ++ [SessionState.STOPPED]⟩
            else ⟨StopResp.payload s2, rc.2, true, step1.2⟩

/-- C9: the stop endpoint is idempotent past terminal states and
rejects CREATED.  For an existing session: when it is STOPPED or ERROR
the session is returned unchanged and the runner is not called; when it
is CREATED the call fails with 409 INVALID_STATE and changes nothing;
when it is RUNNING the session transitions to STOPPING (emitting that
state first), the runner is called, and if the session is afterwards
still not terminal it is finalized to STOPPED with ended_at and the
runner's exit code set — while a session the runner drove to ERROR is
returned as is. -/
theorem C9_stop_session_cases (sessions : List Session) (sid : String)
    (runnerStop : List Session → Option Int × List Session) (now : String)
    (s : Session) (h : lookupApiSession sessions sid = some s) :
    ((s.state = SessionState.STOPPED ∨ s.state = SessionState.ERROR) →
        stopSession sessions sid runnerStop now =
          ⟨StopResp.payload s, sessions, false, []⟩) ∧
      (s.state = SessionState.CREATED →
        stopSession sessions sid runnerStop now =
          ⟨StopResp.invalidState, sessions, false, []⟩) ∧
      (s.state = SessionState.RUNNING →
        (stopSession sessions sid runnerStop now).runnerCalled = true ∧
        (stopSession sessions sid runnerStop now).emitted.head? =
          some SessionState.STOPPING ∧
        (∀ s2, lookupApiSession
              (runnerStop (updateApiSession sessions
                (transition s SessionState.STOPPING false false none now))).2 sid = some s2 →
            s2.state ≠ SessionState.STOPPED → s2.state ≠ SessionState.ERROR →
            (stopSession sessions sid runnerStop now).resp =
                StopResp.payload (transition s2 SessionState.STOPPED false true
                  (runnerStop (updateApiSession sessions
                    (transition s SessionState.STOPPING false false none now))).1 now) ∧
              (transition s2 SessionState.STOPPED false true
                  (runnerStop (updateApiSession sessions
                    (transition s SessionState.STOPPING false false none now))).1 now).state =
                SessionState.STOPPED ∧
              (transition s2 SessionState.STOPPED false true
                  (runnerStop (updateApiSession sessions
                    (transition s SessionState.STOPPING false false none now))).1 now).endedAt =
                some now) ∧
        (∀ s2, lookupApiSession
              (runnerStop (updateApiSession sessions
                (transition s SessionState.STOPPING false false none now))).2 sid = some s2 →
            s2.state = SessionState.ERROR →
            (stopSession sessions sid runnerStop now).resp = StopResp.payload s2)) := by
  refine ⟨?_, ?_, ?_⟩
  · intro hterm
    unfold stopSession
    rw [h]
    simp [hterm]
  · intro hcre
    unfold stopSession
    rw [h]
    simp [hcre]
  · intro hrun
    have e1 : (SessionState.RUNNING = SessionState.STOPPED ∨
        SessionState.RUNNING = SessionState.ERROR) = False := by simp
    have e2 : (SessionState.RUNNING = SessionState.CREATED) = False := by simp
    unfold stopSession
    rw [h]
    simp only [hrun, e1, e2, eq_self_iff_true, if_true, if_false]
    rcases hlook : lookupApiSession
        (runnerStop (updateApiSession sessions
          (transition s SessionState.STOPPING false false none now))).2 sid with _ | s2
    · refine ⟨rfl, rfl, ?_, ?_⟩
      · intro s2 hs2' _ _
        cases hs2'
      · intro s2 hs2' _
        cases hs2'
    · by_cases hterm2 : s2.state ≠ SessionState.STOPPED ∧ s2.state ≠ SessionState.ERROR
      · dsimp only
        rw [if_pos hterm2]
        refine ⟨rfl, rfl, ?_, ?_⟩
        · intro s2' hs2' hns hne
          cases hs2'
          exact ⟨rfl, rfl, rfl⟩
        · intro s2' hs2' herr
          cases hs2'
          exact absurd herr hterm2.2
      · dsimp only
        rw [if_neg hterm2]
        refine ⟨rfl, rfl, ?_, ?_⟩
        · intro s2' hs2' hns hne
          cases hs2'
          exact absurd ⟨hns, hne⟩ hterm2
        · intro s2' hs2' herr
          cases hs2'
          rfl

/-- A concrete terminal session for exercising the stop endpoint. -/
def demoStoppedSession : Session :=
  { id := "sess_a"
    repoId := "repo_demo"
    repoDisplay := "repo_demo"
    state := SessionState.STOPPED
    name := some "New session"
    createdAt := "2026-02-03T12:00:00Z"
    startedAt := some "2026-02-03T12:00:01Z"
    endedAt := some "2026-02-03T12:00:02Z"
    lastActivityAt := "2026-02-03T12:00:02Z"
    exitCode := some 0
    summary := none
    runnerHeader := none }

/-- Witness for C9: stopping an already STOPPED session returns it
unchanged and never calls the runner. -/
theorem C9_stop_session_cases_witness :
    stopSession [demoStoppedSession] "sess_a"
        (fun ss => (some 0, ss)) "2026-02-03T12:00:03Z" =
      ⟨StopResp.payload demoStoppedSession, [demoStoppedSession], false, []⟩ :=
  (C9_stop_session_cases [demoStoppedSession] "sess_a"
      (fun ss => (some 0, ss)) "2026-02-03T12:00:03Z" demoStoppedSession rfl).1
    (Or.inl rfl)

/-- C10: every session built by `create_session` has name already set to
the literal "New session" (never null), state CREATED, null started_at,
ended_at and exit_code, and created_at equal to last_activity_at; in
consequence the name-inference step, which assigns a name only when one
is not already set, leaves such a session unchanged for every prompt. -/
theorem C10_create_session_fields (sid repoId : String) (baseRef : Option String) (now : String) :
    (createSession sid repoId baseRef now).name = some "New session" ∧
      (createSession sid repoId baseRef now).state = SessionState.CREATED ∧
      (createSession sid repoId baseRef now).startedAt = none ∧
      (createSession sid repoId baseRef now).endedAt = none ∧
      (createSession sid repoId baseRef now).exitCode = none ∧
      (createSession sid repoId baseRef now).createdAt =
        (createSession sid repoId baseRef now).lastActivityAt ∧
      ∀ prompt, maybeSetSessionName (createSession sid repoId baseRef now) prompt =
        createSession sid repoId baseRef now := by
  refine ⟨rfl, rfl, rfl, rfl, rfl, rfl, ?_⟩
  intro prompt
  simp [maybeSetSessionName, createSession]

end Tether
